import Mathlib

/-!
Shallow embedding of the RealtimeStatusUpdatrs server core: the in-memory
order store (`MemStorage` in server/storage), the mock Kafka status
simulator (`MockKafkaService` in server/services/mock-kafka.ts), and the
route handlers of server/routes.ts that the verified properties concern.

Modelling conventions:
* Timestamps are natural numbers; every store operation receives the
  current clock value as an explicit `now` argument (the source reads the
  wall clock via `new Date()` inside the operation; an operation is atomic
  with respect to the clock).
* JS `Map`s are association lists in key-insertion order, matching JS Map
  iteration semantics: `set` of an existing key keeps its position, `set`
  of a new key appends, `delete` removes the entry.
* The `jsonb` metadata bag is opaque and modelled as `Option String`.
* Randomness in the simulator (the sampled order id and the random
  duration label) is externalized into explicit parameters.
-/

namespace RSU

/-- An order record (table `orders` in shared/schema.ts). -/
structure Order where
  id : Nat
  orderId : String
  customerId : String
  customerName : String
  totalAmount : String
  itemCount : Nat
  status : String
  createdAt : Nat
  updatedAt : Nat
deriving Repr, DecidableEq

/-- Create payload for an order (`insertOrderSchema` omits id and the
timestamps, which are server-assigned). -/
structure InsertOrder where
  orderId : String
  customerId : String
  customerName : String
  totalAmount : String
  itemCount : Nat
  status : String
deriving Repr, DecidableEq

/-- A message attached to an order (table `order_messages`). -/
structure OrderMessage where
  id : Nat
  orderId : String
  messageType : String
  content : String
  timestamp : Nat
  metadata : Option String
deriving Repr, DecidableEq

/-- Create payload for an order message (`insertOrderMessageSchema`). -/
structure InsertOrderMessage where
  orderId : String
  messageType : String
  content : String
  metadata : Option String
deriving Repr, DecidableEq

/-- A status-history entry (table `order_status_history`). -/
structure OrderStatusHistory where
  id : Nat
  orderId : String
  status : String
  title : String
  description : String
  operator : String
  duration : Option String
  timestamp : Nat
deriving Repr, DecidableEq

/-- Create payload for a status-history entry
(`insertOrderStatusHistorySchema`). -/
structure InsertOrderStatusHistory where
  orderId : String
  status : String
  title : String
  description : String
  operator : String
  duration : Option String
deriving Repr, DecidableEq

/-- Lookup in a JS `Map` modelled as an association list. -/
def mapGet {α : Type} (m : List (String × α)) (k : String) : Option α :=
  match m with
  | [] => none
  | (k2, v) :: rest => if k2 = k then some v else mapGet rest k

/-- JS `Map.set`: an existing key keeps its position, a new key appends. -/
def mapSet {α : Type} (m : List (String × α)) (k : String) (v : α) :
    List (String × α) :=
  match m with
  | [] => [(k, v)]
  | (k2, v2) :: rest =>
    if k2 = k then (k2, v) :: rest else (k2, v2) :: mapSet rest k v

/-- JS `Map.delete`: removes the entry for the key, keeping the rest in
order. -/
def mapDelete {α : Type} (m : List (String × α)) (k : String) :
    List (String × α) :=
  m.filter (fun p => !(p.1 == k))

/-- The state of `MemStorage`: three keyed collections plus the shared
running id counter (`currentId`, starting at 1 in the constructor). -/
structure MemStorage where
  orders : List (String × Order)
  messages : List (String × List OrderMessage)
  statusHistory : List (String × List OrderStatusHistory)
  currentId : Nat
deriving Repr, DecidableEq

/-- The freshly constructed storage (`new MemStorage()`). -/
def emptyStorage : MemStorage :=
  { orders := [], messages := [], statusHistory := [], currentId := 1 }

/-- MemStorage.getOrder: plain map lookup. -/
def getOrder (st : MemStorage) (orderId : String) : Option Order :=
  mapGet st.orders orderId

/-- MemStorage.createOrder: assigns the next internal id, stamps both
timestamps with the current clock, and stores the record keyed by its
`orderId` (overwriting any record already stored under that key). -/
def createOrder (st : MemStorage) (ins : InsertOrder) (now : Nat) :
    Order × MemStorage :=
  let order : Order :=
    { id := st.currentId
      orderId := ins.orderId
      customerId := ins.customerId
      customerName := ins.customerName
      totalAmount := ins.totalAmount
      itemCount := ins.itemCount
      status := ins.status
      createdAt := now
      updatedAt := now }
  (order,
   { st with
      orders := mapSet st.orders ins.orderId order
      currentId := st.currentId + 1 })

/-- A `Partial<InsertOrder>` update object: a field is `none` when the
corresponding key is absent from the update object. -/
structure PartialInsertOrder where
  orderId : Option String
  customerId : Option String
  customerName : Option String
  totalAmount : Option String
  itemCount : Option Nat
  status : Option String
deriving Repr, DecidableEq

/-- The update object `\x7b status: newStatus \x7d` used by the simulator and
the manual trigger. -/
def statusPatch (newStatus : String) : PartialInsertOrder :=
  { orderId := none, customerId := none, customerName := none,
    totalAmount := none, itemCount := none, status := some newStatus }

/-- The object-spread merge `\x7b ...order, ...updates, updatedAt: new Date() \x7d`
performed by MemStorage.updateOrder. -/
def mergeOrder (o : Order) (u : PartialInsertOrder) (now : Nat) : Order :=
  { id := o.id
    orderId := u.orderId.getD o.orderId
    customerId := u.customerId.getD o.customerId
    customerName := u.customerName.getD o.customerName
    totalAmount := u.totalAmount.getD o.totalAmount
    itemCount := u.itemCount.getD o.itemCount
    status := u.status.getD o.status
    createdAt := o.createdAt
    updatedAt := now }

/-- MemStorage.updateOrder: returns `none` and leaves the store untouched
when the order is absent; otherwise merges the supplied fields, refreshes
`updatedAt`, and stores the merged record back under the same key. -/
def updateOrder (st : MemStorage) (orderId : String)
    (u : PartialInsertOrder) (now : Nat) : Option Order × MemStorage :=
  match mapGet st.orders orderId with
  | none => (none, st)
  | some o =>
    let o2 := mergeOrder o u now
    (some o2, { st with orders := mapSet st.orders orderId o2 })

/-- Stable descending insertion by `updatedAt`: the new element is placed
before the first element whose `updatedAt` is less than or equal to its
own, so elements with equal timestamps keep their original relative
order. -/
def insertDesc (x : Order) : List Order → List Order
  | [] => [x]
  | y :: ys =>
    if x.updatedAt < y.updatedAt then y :: insertDesc x ys
    else x :: y :: ys

/-- The stable sort by `updatedAt` descending performed by
MemStorage.getRecentOrders via the (stable, per ES2019) engine
`Array.prototype.sort` with comparator
`b.updatedAt.getTime() - a.updatedAt.getTime()`.  A stable sort by a
total preorder has a unique result, so this insertion sort computes the
same list. -/
def sortDesc : List Order → List Order
  | [] => []
  | x :: xs => insertDesc x (sortDesc xs)

/-- The values of the orders map in key-insertion order
(`Array.from(this.orders.values())`). -/
def ordersList (st : MemStorage) : List Order :=
  st.orders.map Prod.snd

/-- MemStorage.getRecentOrders: sort all orders by `updatedAt` descending
(stably) and truncate to `limit`. -/
def getRecentOrders (st : MemStorage) (limit : Nat) : List Order :=
  (sortDesc (ordersList st)).take limit

/-- MemStorage.getRecentOrders with the default limit (`limit = 10`). -/
def getRecentOrdersDefault (st : MemStorage) : List Order :=
  getRecentOrders st 10

/-- MemStorage.getOrderMessages: the stored list, or `[]` if none. -/
def getOrderMessages (st : MemStorage) (orderId : String) :
    List OrderMessage :=
  (mapGet st.messages orderId).getD []

/-- MemStorage.addOrderMessage: assigns the next id, stamps the
timestamp, defaults absent metadata to null, and appends to that order's
message list. -/
def addOrderMessage (st : MemStorage) (im : InsertOrderMessage)
    (now : Nat) : OrderMessage × MemStorage :=
  let msg : OrderMessage :=
    { id := st.currentId
      orderId := im.orderId
      messageType := im.messageType
      content := im.content
      timestamp := now
      metadata := im.metadata }
  let cur := (mapGet st.messages im.orderId).getD []
  (msg,
   { st with
      messages := mapSet st.messages im.orderId (cur ++ [msg])
      currentId := st.currentId + 1 })

/-- MemStorage.clearOrderMessages: `this.messages.delete(orderId)`. -/
def clearOrderMessages (st : MemStorage) (orderId : String) : MemStorage :=
  { st with messages := mapDelete st.messages orderId }

/-- MemStorage.getOrderStatusHistory: the stored list, or `[]`. -/
def getOrderStatusHistory (st : MemStorage) (orderId : String) :
    List OrderStatusHistory :=
  (mapGet st.statusHistory orderId).getD []

/-- MemStorage.addOrderStatusHistory: assigns the next id, stamps the
timestamp, defaults absent duration to null, appends to that order's
history list. -/
def addOrderStatusHistory (st : MemStorage)
    (ih : InsertOrderStatusHistory) (now : Nat) :
    OrderStatusHistory × MemStorage :=
  let entry : OrderStatusHistory :=
    { id := st.currentId
      orderId := ih.orderId
      status := ih.status
      title := ih.title
      description := ih.description
      operator := ih.operator
      duration := ih.duration
      timestamp := now }
  let cur := (mapGet st.statusHistory ih.orderId).getD []
  (entry,
   { st with
      statusHistory := mapSet st.statusHistory ih.orderId (cur ++ [entry])
      currentId := st.currentId + 1 })

/-- An event handed to the push fan-out layer (`\x7b type, data \x7d` with the
updated order as payload). -/
structure Event where
  type : String
  data : Order
deriving Repr, DecidableEq

/-- The fixed demo set the simulator samples from
(`sampleOrders` in MockKafkaService.simulateOrderUpdate). -/
def sampleOrderIds : List String :=
  ["ORD-2024-001", "ORD-2024-002", "ORD-2024-003"]

/-- The forward status chain (`statusProgression` in
MockKafkaService.simulateOrderUpdate): `none` for statuses with no
successor (delivered, cancelled, or anything outside the map). -/
def statusProgression (s : String) : Option String :=
  if s = "pending" then some "confirmed"
  else if s = "confirmed" then some "processing"
  else if s = "processing" then some "shipped"
  else if s = "shipped" then some "delivered"
  else none

/-- MockKafkaService.getStatusTitle: fixed title table with a generic
fallback. -/
def getStatusTitle (status : String) : String :=
  if status = "pending" then "Order Placed"
  else if status = "confirmed" then "Order Confirmed"
  else if status = "processing" then "Processing"
  else if status = "shipped" then "Shipped"
  else if status = "delivered" then "Delivered"
  else if status = "cancelled" then "Cancelled"
  else "Status Update"

/-- MockKafkaService.getStatusDescription: fixed description table with a
generic fallback. -/
def getStatusDescription (status : String) : String :=
  if status = "pending" then
    "Your order has been placed and is awaiting confirmation."
  else if status = "confirmed" then
    "Your order has been confirmed and is being prepared for processing."
  else if status = "processing" then
    "Items are being prepared and packaged for shipment."
  else if status = "shipped" then
    "Your order has been shipped and is on its way."
  else if status = "delivered" then
    "Your order has been delivered successfully."
  else if status = "cancelled" then
    "Your order has been cancelled."
  else "Status has been updated."

/-- MockKafkaService.simulateOrderUpdate, one tick targeting a given
order.  The randomly sampled order id and the random duration label are
passed in explicitly.  When the order exists and its status has a
successor in the forward chain, the tick updates the order, appends one
status-history entry (operator "System", title and description from the
fixed tables), appends one message of type `status_update`, and emits an
`order_update` event; otherwise it is a no-op emitting nothing. -/
def simulateOrderUpdate (st : MemStorage) (orderId : String)
    (dur : String) (now : Nat) : MemStorage × Option Event :=
  match getOrder st orderId with
  | none => (st, none)
  | some currentOrder =>
    match statusProgression currentOrder.status with
    | none => (st, none)
    | some newStatus =>
      match updateOrder st orderId (statusPatch newStatus) now with
      | (none, st2) => (st2, none)
      | (some updated, st2) =>
        let st3 := (addOrderStatusHistory st2
          { orderId := orderId
            status := newStatus
            title := getStatusTitle newStatus
            description := getStatusDescription newStatus
            operator := "System"
            duration := some dur } now).2
        let st4 := (addOrderMessage st3
          { orderId := orderId
            messageType := "status_update"
            content := "Order status updated to " ++ newStatus
            metadata := some "simulatedUpdate" } now).2
        (st4, some { type := "order_update", data := updated })

/-- MockKafkaService.triggerOrderUpdate: the manual path.  Updates the
order to the externally supplied status with no chain validation; when
the order exists it appends one status-history entry (operator "Manual"),
one message of type `status_update`, and emits an `order_update` event;
when the order is absent, `updateOrder` returns not-found and nothing
else happens. -/
def triggerOrderUpdate (st : MemStorage) (orderId newStatus : String)
    (dur : String) (now : Nat) : MemStorage × Option Event :=
  match updateOrder st orderId (statusPatch newStatus) now with
  | (none, st2) => (st2, none)
  | (some order, st2) =>
    let st3 := (addOrderStatusHistory st2
      { orderId := orderId
        status := newStatus
        title := getStatusTitle newStatus
        description := getStatusDescription newStatus
        operator := "Manual"
        duration := some dur } now).2
    let st4 := (addOrderMessage st3
      { orderId := orderId
        messageType := "status_update"
        content := "Order status manually updated to " ++ newStatus
        metadata := some "manualUpdate" } now).2
    (st4, some { type := "order_update", data := order })

/-- A connected SSE client of the subscription-filtering route variant:
an opaque client id plus the set of order ids it tracks
(`subscribedOrders`, modelled as a list). -/
structure SSEClient where
  clientId : String
  subscribedOrders : List String
deriving Repr, DecidableEq

/-- Client creation at connection time in GET /api/events: subscribed to
the single order named by the `orderId` query parameter, or to the empty
set when the parameter is absent (the connection is then reported as
`subscribedTo: all_orders`). -/
def connectClient (clientId : String) (orderId : Option String) :
    SSEClient :=
  { clientId := clientId
    subscribedOrders := match orderId with
      | some oid => [oid]
      | none => [] }

/-- The targeted broadcast of the fan-out layer for an `order_update`
event: the set of clients written to is exactly the set of clients whose
`subscribedOrders` contains the event's order id
(`if (client.subscribedOrders.has(orderId))`). -/
def deliverOrderUpdate (clients : List SSEClient) (orderId : String) :
    List SSEClient :=
  clients.filter (fun c => c.subscribedOrders.contains orderId)

/-- Delivery rule as the specification states it, for comparison with
`deliverOrderUpdate`: deliver to every client whose subscription set
contains the order id or which is in "all orders" mode (empty
subscription set, i.e. connected with no order filter). -/
def specDeliverOrderUpdate (clients : List SSEClient) (orderId : String) :
    List SSEClient :=
  clients.filter
    (fun c => c.subscribedOrders.contains orderId || c.subscribedOrders.isEmpty)

/-- Outcome of a route handler: HTTP status, whether the JSON body
carried `success: true`, the resulting store state, and the event (if
any) handed to the fan-out layer. -/
structure RouteResult where
  status : Nat
  success : Bool
  state : MemStorage
  event : Option Event
deriving Repr, DecidableEq

/-- POST /api/orders: the body is validated by `insertOrderSchema.parse`;
a parsed body is exactly an `InsertOrder` value, and the handler then
always answers 200 with the created order (there is no duplicate-key
check anywhere on this path). -/
def createOrderRoute (st : MemStorage) (ins : InsertOrder) (now : Nat) :
    RouteResult :=
  let r := createOrder st ins now
  { status := 200, success := true, state := r.2, event := none }

/-- POST /api/orders/:orderId/trigger-update, the variant with no status
guard: reads `status` from the body, runs the manual trigger, and always
answers 200 with a success marker.  `bodyStatus` is the status value for
a request that supplies one. -/
def triggerUpdateRouteUnguarded (st : MemStorage) (orderId : String)
    (bodyStatus : String) (dur : String) (now : Nat) : RouteResult :=
  let r := triggerOrderUpdate st orderId bodyStatus dur now
  { status := 200, success := true, state := r.1, event := r.2 }

/-- JS truthiness test performed by `if (!status)`: a missing field and
an empty string are both falsy. -/
def statusFalsy : Option String → Bool
  | none => true
  | some s => s == ""

/-- POST /api/orders/:orderId/trigger-update, the guarded variant: a
falsy `status` field (missing or empty string) answers 400 without
touching anything; otherwise the manual trigger runs and the handler
answers 200 with a success marker. -/
def triggerUpdateRoute (st : MemStorage) (orderId : String)
    (bodyStatus : Option String) (dur : String) (now : Nat) : RouteResult :=
  if statusFalsy bodyStatus then
    { status := 400, success := false, state := st, event := none }
  else
    let r := triggerOrderUpdate st orderId (bodyStatus.getD "") dur now
    { status := 200, success := true, state := r.1, event := r.2 }

/-- A sample create payload (first entry of the demo set). -/
def demoInsert : InsertOrder :=
  { orderId := "ORD-2024-001", customerId := "CUST-123",
    customerName := "John Doe", totalAmount := "89.99",
    itemCount := 3, status := "pending" }

/-- A small concrete store holding the sample order, used to instantiate
the verified properties. -/
def demoStore : MemStorage := (createOrder emptyStorage demoInsert 0).2

/-- Reading a key just set yields the new value. -/
theorem mapGet_set_self {α : Type} (m : List (String × α)) (k : String)
    (v : α) : mapGet (mapSet m k v) k = some v := by
  induction m with
  | nil => simp [mapSet, mapGet]
  | cons p rest ih =>
    obtain ⟨a, b⟩ := p
    by_cases h : a = k
    · subst h
      simp [mapSet, mapGet]
    · simp [mapSet, mapGet, h, ih]

/-- Setting one key leaves lookups of other keys unchanged. -/
theorem mapGet_set_ne {α : Type} (m : List (String × α)) (k k2 : String)
    (v : α) (h : k2 ≠ k) : mapGet (mapSet m k v) k2 = mapGet m k2 := by
  induction m with
  | nil =>
    have hk : ¬ k = k2 := Ne.symm h
    simp [mapSet, mapGet, hk]
  | cons p rest ih =>
    obtain ⟨a, b⟩ := p
    by_cases hp : a = k
    · subst hp
      have hk : ¬ a = k2 := Ne.symm h
      simp [mapSet, mapGet, hk]
    · simp [mapSet, mapGet, hp, ih]

/-- Reading a deleted key yields nothing. -/
theorem mapGet_delete_self {α : Type} (m : List (String × α))
    (k : String) : mapGet (mapDelete m k) k = none := by
  induction m with
  | nil => rfl
  | cons p rest ih =>
    obtain ⟨a, b⟩ := p
    by_cases h : a = k
    · subst h
      simpa [mapDelete, List.filter_cons] using ih
    · have hb : (a == k) = false := by simp [h]
      simpa [mapDelete, List.filter_cons, hb, mapGet, h] using ih

/-- Deleting one key leaves lookups of other keys unchanged. -/
theorem mapGet_delete_ne {α : Type} (m : List (String × α))
    (k k2 : String) (h : k2 ≠ k) :
    mapGet (mapDelete m k) k2 = mapGet m k2 := by
  induction m with
  | nil => rfl
  | cons p rest ih =>
    obtain ⟨a, b⟩ := p
    by_cases hp : a = k
    · subst hp
      have hne : ¬ a = k2 := Ne.symm h
      simpa [mapDelete, List.filter_cons, mapGet, hne] using ih
    · have hb : (a == k) = false := by simp [hp]
      by_cases hp2 : a = k2
      · subst hp2
        simp [mapDelete, List.filter_cons, hb, mapGet]
      · simpa [mapDelete, List.filter_cons, hb, mapGet, hp2] using ih

/-- Setting an absent key appends the binding at the end of the map. -/
theorem mapSet_absent {α : Type} (m : List (String × α)) (k : String)
    (v : α) (h : mapGet m k = none) : mapSet m k v = m ++ [(k, v)] := by
  induction m with
  | nil => rfl
  | cons p rest ih =>
    obtain ⟨a, b⟩ := p
    by_cases hp : a = k
    · simp [mapGet, hp] at h
    · simp [mapGet, hp] at h
      simp [mapSet, hp, ih h]

/-- The descending preorder on orders used by `getRecentOrders`. -/
def updGe (a b : Order) : Prop := b.updatedAt ≤ a.updatedAt

/-- Membership in a descending insertion. -/
theorem mem_insertDesc (a x : Order) (l : List Order) :
    a ∈ insertDesc x l ↔ a = x ∨ a ∈ l := by
  induction l with
  | nil => simp [insertDesc]
  | cons y ys ih =>
    by_cases h : x.updatedAt < y.updatedAt
    · rw [insertDesc, if_pos h]
      simp only [List.mem_cons, ih]
      tauto
    · rw [insertDesc, if_neg h]
      simp [List.mem_cons]

/-- The stable sort does not change membership. -/
theorem mem_sortDesc (a : Order) (l : List Order) :
    a ∈ sortDesc l ↔ a ∈ l := by
  induction l with
  | nil => simp [sortDesc]
  | cons x xs ih => simp [sortDesc, mem_insertDesc, ih]

/-- Inserting into a descending-sorted list keeps it sorted. -/
theorem pairwise_insertDesc (x : Order) (l : List Order)
    (h : List.Pairwise updGe l) :
    List.Pairwise updGe (insertDesc x l) := by
  induction l with
  | nil => simp [insertDesc]
  | cons y ys ih =>
    rw [List.pairwise_cons] at h
    by_cases hlt : x.updatedAt < y.updatedAt
    · rw [insertDesc]
      simp only [hlt, if_true]
      rw [List.pairwise_cons]
      constructor
      · intro b hb
        rcases (mem_insertDesc b x ys).mp hb with hbx | hby
        · subst hbx
          exact le_of_lt hlt
        · exact h.1 b hby
      · exact ih h.2
    · rw [insertDesc]
      simp only [hlt, if_false]
      rw [List.pairwise_cons]
      constructor
      · intro b hb
        rcases List.mem_cons.mp hb with hby | hbys
        · subst hby
          exact not_lt.mp hlt
        · exact le_trans (h.1 b hbys) (not_lt.mp hlt)
      · exact List.pairwise_cons.mpr h

/-- The stable sort yields a descending-sorted list. -/
theorem pairwise_sortDesc (l : List Order) :
    List.Pairwise updGe (sortDesc l) := by
  induction l with
  | nil => simp [sortDesc]
  | cons x xs ih => exact pairwise_insertDesc x (sortDesc xs) ih

/-- Filtering on one timestamp commutes with a descending insertion:
elements placed in front of `x` all have a strictly larger timestamp. -/
theorem filter_insertDesc (x : Order) (l : List Order) (t : Nat) :
    (insertDesc x l).filter (fun o => o.updatedAt == t) =
      if x.updatedAt == t then x :: l.filter (fun o => o.updatedAt == t)
      else l.filter (fun o => o.updatedAt == t) := by
  induction l with
  | nil =>
    by_cases hx : x.updatedAt = t
    · simp [insertDesc, hx]
    · simp [insertDesc, hx]
  | cons y ys ih =>
    by_cases hlt : x.updatedAt < y.updatedAt
    · rw [insertDesc, if_pos hlt]
      by_cases hx : x.updatedAt = t
      · have hy : ¬ (y.updatedAt = t) := by omega
        have hxb : (x.updatedAt == t) = true := by simp [hx]
        have hyb : (y.updatedAt == t) = false := by simp [hy]
        simp [List.filter_cons, hxb, hyb, ih]
      · have hxb : (x.updatedAt == t) = false := by simp [hx]
        simp [List.filter_cons, hxb, ih]
    · rw [insertDesc, if_neg hlt]
      by_cases hx : x.updatedAt = t
      · have hxb : (x.updatedAt == t) = true := by simp [hx]
        simp [List.filter_cons, hxb]
      · have hxb : (x.updatedAt == t) = false := by simp [hx]
        simp [List.filter_cons, hxb]

/-- Stability of the sort: among the orders sharing one `updatedAt`
value, the sorted output preserves the original (map insertion) order. -/
theorem filter_sortDesc (l : List Order) (t : Nat) :
    (sortDesc l).filter (fun o => o.updatedAt == t) =
      l.filter (fun o => o.updatedAt == t) := by
  induction l with
  | nil => simp [sortDesc]
  | cons x xs ih =>
    rw [sortDesc, filter_insertDesc]
    by_cases hx : x.updatedAt = t
    · have hxb : (x.updatedAt == t) = true := by simp [hx]
      simp [List.filter_cons, hxb, ih]
    · have hxb : (x.updatedAt == t) = false := by simp [hx]
      simp [List.filter_cons, hxb, ih]

/-- A second sample payload with a fresh orderId (the spec's test
scenario order). -/
def demoInsert2 : InsertOrder :=
  { orderId := "ORD-TEST-1", customerId := "CUST-900",
    customerName := "Test User", totalAmount := "10.00",
    itemCount := 1, status := "pending" }

/-- Updating an existing key: the result and the stored record are the
merge of the old record with the supplied fields. -/
theorem updateOrder_found (st : MemStorage) (oid : String)
    (u : PartialInsertOrder) (now : Nat) (o : Order)
    (h : mapGet st.orders oid = some o) :
    updateOrder st oid u now =
      (some (mergeOrder o u now),
       { st with orders := mapSet st.orders oid (mergeOrder o u now) }) := by
  unfold updateOrder
  rw [h]

/-- Updating an absent key returns not-found and leaves the store
untouched. -/
theorem updateOrder_absent (st : MemStorage) (oid : String)
    (u : PartialInsertOrder) (now : Nat)
    (h : mapGet st.orders oid = none) :
    updateOrder st oid u now = (none, st) := by
  unfold updateOrder
  rw [h]

/-- C5: for every valid create payload, `createOrder` followed by
`getOrder` on the same orderId returns the created record, whose fields
equal the input plus the server-assigned id and timestamps, and at
creation `createdAt` equals `updatedAt`. -/
theorem createOrder_getOrder_roundtrip (st : MemStorage)
    (ins : InsertOrder) (now : Nat) :
    getOrder (createOrder st ins now).2 ins.orderId
        = some (createOrder st ins now).1
    ∧ (createOrder st ins now).1.orderId = ins.orderId
    ∧ (createOrder st ins now).1.customerId = ins.customerId
    ∧ (createOrder st ins now).1.customerName = ins.customerName
    ∧ (createOrder st ins now).1.totalAmount = ins.totalAmount
    ∧ (createOrder st ins now).1.itemCount = ins.itemCount
    ∧ (createOrder st ins now).1.status = ins.status
    ∧ (createOrder st ins now).1.id = st.currentId
    ∧ (createOrder st ins now).1.createdAt = now
    ∧ (createOrder st ins now).1.updatedAt = now
    ∧ (createOrder st ins now).1.createdAt
        = (createOrder st ins now).1.updatedAt := by
  refine ⟨?_, rfl, rfl, rfl, rfl, rfl, rfl, rfl, rfl, rfl, rfl⟩
  simp [getOrder, createOrder, mapGet_set_self]

/-- C1 counterexample: a client connected with no order filter (reported
as subscribed to `all_orders`, subscription set empty) receives no
`order_update` event at all, contradicting the claim that an all-orders
client receives every order update: the code delivers the ORD-2024-001
update to nobody while the claimed rule delivers it to that client. -/
theorem fanout_all_orders_client_cex :
    (connectClient "client_1" none).subscribedOrders = []
    ∧ deliverOrderUpdate [connectClient "client_1" none] "ORD-2024-001" = []
    ∧ specDeliverOrderUpdate [connectClient "client_1" none] "ORD-2024-001"
        = [connectClient "client_1" none]
    ∧ deliverOrderUpdate [connectClient "client_1" none] "ORD-2024-001"
        ≠ specDeliverOrderUpdate [connectClient "client_1" none]
            "ORD-2024-001" := by
  refine ⟨rfl, rfl, rfl, ?_⟩
  decide

/-- C1 (amended): for an order_update tagged with an orderId, the
fan-out layer delivers the event to exactly those connected clients
whose subscription set contains that orderId; a client subscribed only
to other orders does not receive it, and a client with an empty
subscription set (connected with no order filter) receives no
order_update events. -/
theorem fanout_delivery_amended (clients : List SSEClient)
    (oid : String) :
    (∀ c, c ∈ deliverOrderUpdate clients oid
        ↔ c ∈ clients ∧ c.subscribedOrders.contains oid = true)
    ∧ (∀ c, c ∈ clients → c.subscribedOrders.contains oid = false →
        c ∉ deliverOrderUpdate clients oid)
    ∧ (∀ c, c ∈ clients → c.subscribedOrders = [] →
        c ∉ deliverOrderUpdate clients oid) := by
  refine ⟨?_, ?_, ?_⟩
  · intro c
    exact List.mem_filter
  · intro c _ hc hmem
    have h2 := (List.mem_filter.mp hmem).2
    rw [hc] at h2
    cases h2
  · intro c hin hempty hmem
    have h2 := (List.mem_filter.mp hmem).2
    rw [hempty] at h2
    cases h2

/-- Witness for the amended C1 delivery rule at concrete clients. -/
theorem fanout_delivery_amended_w :
    connectClient "cA" (some "ORD-A") ∈
      deliverOrderUpdate
        [connectClient "cA" (some "ORD-A"),
         connectClient "cB" (some "ORD-B")] "ORD-A"
    ∧ connectClient "cB" (some "ORD-B") ∉
      deliverOrderUpdate
        [connectClient "cA" (some "ORD-A"),
         connectClient "cB" (some "ORD-B")] "ORD-A" := by
  constructor
  · exact ((fanout_delivery_amended _ "ORD-A").1 _).mpr
      ⟨by simp, by decide⟩
  · exact (fanout_delivery_amended _ "ORD-A").2.1 _ (by simp) (by decide)

/-- C10: for an orderId absent from the store, the manual trigger leaves
all three collections unchanged (no order created, nothing appended) and
emits no event, while the trigger-update endpoint still answers 200 with
a success marker. -/
theorem trigger_missing_order_noop (st : MemStorage)
    (oid ns dur : String) (now : Nat) (h : getOrder st oid = none) :
    triggerOrderUpdate st oid ns dur now = (st, none)
    ∧ triggerUpdateRouteUnguarded st oid ns dur now
        = { status := 200, success := true, state := st, event := none } := by
  have hm : mapGet st.orders oid = none := h
  have ht : triggerOrderUpdate st oid ns dur now = (st, none) := by
    unfold triggerOrderUpdate
    rw [updateOrder_absent st oid (statusPatch ns) now hm]
  refine ⟨ht, ?_⟩
  simp [triggerUpdateRouteUnguarded, ht]

/-- Witness for C10 at a concrete store and a concrete missing id. -/
theorem trigger_missing_order_noop_w :
    triggerOrderUpdate demoStore "ORD-NOPE" "delivered" "2m" 7
        = (demoStore, none)
    ∧ (triggerUpdateRouteUnguarded demoStore "ORD-NOPE" "delivered" "2m" 7).status
        = 200 := by
  have h := trigger_missing_order_noop demoStore "ORD-NOPE" "delivered"
    "2m" 7 (by decide)
  exact ⟨h.1, by rw [h.2]⟩

/-- Full effect of one simulator tick on an order whose status has a
successor: status update, one System history entry, one status_update
message, one order_update event, ids drawn from the shared counter. -/
theorem simulateOrderUpdate_found (st : MemStorage) (oid dur : String)
    (now : Nat) (o : Order) (ns : String)
    (h : getOrder st oid = some o)
    (hs : statusProgression o.status = some ns) :
    simulateOrderUpdate st oid dur now =
      ({ orders := mapSet st.orders oid (mergeOrder o (statusPatch ns) now)
         messages := mapSet st.messages oid
           (((mapGet st.messages oid).getD []) ++
             [{ id := st.currentId + 1, orderId := oid,
                messageType := "status_update",
                content := "Order status updated to " ++ ns,
                metadata := some "simulatedUpdate", timestamp := now }])
         statusHistory := mapSet st.statusHistory oid
           (((mapGet st.statusHistory oid).getD []) ++
             [{ id := st.currentId, orderId := oid, status := ns,
                title := getStatusTitle ns,
                description := getStatusDescription ns,
                operator := "System", duration := some dur,
                timestamp := now }])
         currentId := st.currentId + 1 + 1 },
       some { type := "order_update",
              data := mergeOrder o (statusPatch ns) now }) := by
  have hm : mapGet st.orders oid = some o := h
  simp [simulateOrderUpdate, h, hs,
    updateOrder_found st oid (statusPatch ns) now o hm,
    addOrderStatusHistory, addOrderMessage]

/-- A tick targeting an order whose status has no successor changes
nothing and emits nothing. -/
theorem simulateOrderUpdate_stuck (st : MemStorage) (oid dur : String)
    (now : Nat) (o : Order) (h : getOrder st oid = some o)
    (hs : statusProgression o.status = none) :
    simulateOrderUpdate st oid dur now = (st, none) := by
  simp [simulateOrderUpdate, h, hs]

/-- C2: a simulated tick targeting an order whose current status has a
successor in the forward chain sets the status to the successor, appends
exactly one status-history entry with operator "System" and
title/description from the fixed lookup table, appends exactly one
message of type status_update, and emits an order_update; when the
current status has no successor (delivered, cancelled, or outside the
progression map) the tick changes neither the order nor its logs. -/
theorem simulated_tick_spec (st : MemStorage) (oid dur : String)
    (now : Nat) (o : Order) (h : getOrder st oid = some o) :
    (∀ ns, statusProgression o.status = some ns →
      getOrder (simulateOrderUpdate st oid dur now).1 oid
          = some (mergeOrder o (statusPatch ns) now)
      ∧ (mergeOrder o (statusPatch ns) now).status = ns
      ∧ getOrderStatusHistory (simulateOrderUpdate st oid dur now).1 oid
          = getOrderStatusHistory st oid ++
            [{ id := st.currentId, orderId := oid, status := ns,
               title := getStatusTitle ns,
               description := getStatusDescription ns,
               operator := "System", duration := some dur,
               timestamp := now }]
      ∧ getOrderMessages (simulateOrderUpdate st oid dur now).1 oid
          = getOrderMessages st oid ++
            [{ id := st.currentId + 1, orderId := oid,
               messageType := "status_update",
               content := "Order status updated to " ++ ns,
               metadata := some "simulatedUpdate", timestamp := now }]
      ∧ (simulateOrderUpdate st oid dur now).2
          = some { type := "order_update",
                   data := mergeOrder o (statusPatch ns) now })
    ∧ (statusProgression o.status = none →
        simulateOrderUpdate st oid dur now = (st, none)) := by
  constructor
  · intro ns hs
    rw [simulateOrderUpdate_found st oid dur now o ns h hs]
    refine ⟨?_, rfl, ?_, ?_, rfl⟩
    · simp [getOrder, mapGet_set_self]
    · simp [getOrderStatusHistory, mapGet_set_self]
    · simp [getOrderMessages, mapGet_set_self]
  · intro hs
    exact simulateOrderUpdate_stuck st oid dur now o h hs

/-- Witness for C2: the demo order starts pending, one tick moves it to
confirmed with the System history entry and the status_update message. -/
theorem simulated_tick_spec_w :
    getOrder (simulateOrderUpdate demoStore "ORD-2024-001" "2m" 3).1
        "ORD-2024-001"
      = some (mergeOrder (createOrder emptyStorage demoInsert 0).1
          (statusPatch "confirmed") 3)
    ∧ getOrderStatusHistory
        (simulateOrderUpdate demoStore "ORD-2024-001" "2m" 3).1
        "ORD-2024-001"
      = [{ id := 2, orderId := "ORD-2024-001", status := "confirmed",
           title := getStatusTitle "confirmed",
           description := getStatusDescription "confirmed",
           operator := "System", duration := some "2m",
           timestamp := 3 }] := by
  have h := (simulated_tick_spec demoStore "ORD-2024-001" "2m" 3
    (createOrder emptyStorage demoInsert 0).1 (by decide)).1
    "confirmed" (by decide)
  refine ⟨h.1, ?_⟩
  rw [h.2.2.1]
  decide

/-- Full effect of the manual trigger on an existing order: status set
to the supplied value, one Manual history entry, one status_update
message, one order_update event. -/
theorem triggerOrderUpdate_found (st : MemStorage) (oid ns dur : String)
    (now : Nat) (o : Order) (h : mapGet st.orders oid = some o) :
    triggerOrderUpdate st oid ns dur now =
      ({ orders := mapSet st.orders oid (mergeOrder o (statusPatch ns) now)
         messages := mapSet st.messages oid
           (((mapGet st.messages oid).getD []) ++
             [{ id := st.currentId + 1, orderId := oid,
                messageType := "status_update",
                content := "Order status manually updated to " ++ ns,
                metadata := some "manualUpdate", timestamp := now }])
         statusHistory := mapSet st.statusHistory oid
           (((mapGet st.statusHistory oid).getD []) ++
             [{ id := st.currentId, orderId := oid, status := ns,
                title := getStatusTitle ns,
                description := getStatusDescription ns,
                operator := "Manual", duration := some dur,
                timestamp := now }])
         currentId := st.currentId + 1 + 1 },
       some { type := "order_update",
              data := mergeOrder o (statusPatch ns) now }) := by
  simp [triggerOrderUpdate,
    updateOrder_found st oid (statusPatch ns) now o h,
    addOrderStatusHistory, addOrderMessage]

/-- C3: for every existing order and every externally supplied target
status — with no validation against the forward chain — the manual
trigger sets the order's status to the supplied value, refreshes
updatedAt, and appends a status-history entry with operator "Manual"
(plus one status_update message and one order_update event). -/
theorem manual_trigger_unconstrained (st : MemStorage)
    (oid ns dur : String) (now : Nat) (o : Order)
    (h : getOrder st oid = some o) :
    getOrder (triggerOrderUpdate st oid ns dur now).1 oid
        = some (mergeOrder o (statusPatch ns) now)
    ∧ (mergeOrder o (statusPatch ns) now).status = ns
    ∧ (mergeOrder o (statusPatch ns) now).updatedAt = now
    ∧ getOrderStatusHistory (triggerOrderUpdate st oid ns dur now).1 oid
        = getOrderStatusHistory st oid ++
          [{ id := st.currentId, orderId := oid, status := ns,
             title := getStatusTitle ns,
             description := getStatusDescription ns,
             operator := "Manual", duration := some dur,
             timestamp := now }]
    ∧ getOrderMessages (triggerOrderUpdate st oid ns dur now).1 oid
        = getOrderMessages st oid ++
          [{ id := st.currentId + 1, orderId := oid,
             messageType := "status_update",
             content := "Order status manually updated to " ++ ns,
             metadata := some "manualUpdate", timestamp := now }]
    ∧ (triggerOrderUpdate st oid ns dur now).2
        = some { type := "order_update",
                 data := mergeOrder o (statusPatch ns) now } := by
  have hm : mapGet st.orders oid = some o := h
  rw [triggerOrderUpdate_found st oid ns dur now o hm]
  refine ⟨?_, rfl, rfl, ?_, ?_, rfl⟩
  · simp [getOrder, mapGet_set_self]
  · simp [getOrderStatusHistory, mapGet_set_self]
  · simp [getOrderMessages, mapGet_set_self]

/-- Witness for C3: the spec scenario — ORD-TEST-1 goes from pending
directly to delivered via the manual trigger, skipping the chain, with
operator Manual. -/
theorem manual_trigger_unconstrained_w :
    getOrder
        (triggerOrderUpdate (createOrder demoStore demoInsert2 1).2
          "ORD-TEST-1" "delivered" "5m" 2).1 "ORD-TEST-1"
      = some (mergeOrder (createOrder demoStore demoInsert2 1).1
          (statusPatch "delivered") 2)
    ∧ (mergeOrder (createOrder demoStore demoInsert2 1).1
        (statusPatch "delivered") 2).status = "delivered"
    ∧ getOrderStatusHistory
        (triggerOrderUpdate (createOrder demoStore demoInsert2 1).2
          "ORD-TEST-1" "delivered" "5m" 2).1 "ORD-TEST-1"
      = [{ id := 3, orderId := "ORD-TEST-1", status := "delivered",
           title := getStatusTitle "delivered",
           description := getStatusDescription "delivered",
           operator := "Manual", duration := some "5m",
           timestamp := 2 }] := by
  have h := manual_trigger_unconstrained
    (createOrder demoStore demoInsert2 1).2 "ORD-TEST-1" "delivered"
    "5m" 2 (createOrder demoStore demoInsert2 1).1 (by decide)
  refine ⟨h.1, h.2.1, ?_⟩
  rw [h.2.2.2.1]
  decide

/-- C6: updateOrder merges exactly the supplied fields onto the existing
record, refreshes updatedAt (never decreasing it under a monotone
clock), and leaves every unsupplied field — and the id, createdAt, the
other orders, and the message and history collections — unchanged; for
an absent orderId it returns not-found and leaves the store entirely
unchanged, never creating an order. -/
theorem updateOrder_frame (st : MemStorage) (oid : String)
    (u : PartialInsertOrder) (now : Nat) :
    (∀ o, getOrder st oid = some o →
      (updateOrder st oid u now).1 = some (mergeOrder o u now)
      ∧ getOrder (updateOrder st oid u now).2 oid
          = some (mergeOrder o u now)
      ∧ (∀ oid2, oid2 ≠ oid →
          getOrder (updateOrder st oid u now).2 oid2 = getOrder st oid2)
      ∧ (mergeOrder o u now).updatedAt = now
      ∧ (o.updatedAt ≤ now →
          o.updatedAt ≤ (mergeOrder o u now).updatedAt)
      ∧ (mergeOrder o u now).id = o.id
      ∧ (mergeOrder o u now).createdAt = o.createdAt
      ∧ (u.orderId = none → (mergeOrder o u now).orderId = o.orderId)
      ∧ (u.customerId = none →
          (mergeOrder o u now).customerId = o.customerId)
      ∧ (u.customerName = none →
          (mergeOrder o u now).customerName = o.customerName)
      ∧ (u.totalAmount = none →
          (mergeOrder o u now).totalAmount = o.totalAmount)
      ∧ (u.itemCount = none →
          (mergeOrder o u now).itemCount = o.itemCount)
      ∧ (u.status = none → (mergeOrder o u now).status = o.status)
      ∧ (∀ v, u.orderId = some v → (mergeOrder o u now).orderId = v)
      ∧ (∀ v, u.customerId = some v →
          (mergeOrder o u now).customerId = v)
      ∧ (∀ v, u.customerName = some v →
          (mergeOrder o u now).customerName = v)
      ∧ (∀ v, u.totalAmount = some v →
          (mergeOrder o u now).totalAmount = v)
      ∧ (∀ v, u.itemCount = some v →
          (mergeOrder o u now).itemCount = v)
      ∧ (∀ v, u.status = some v → (mergeOrder o u now).status = v)
      ∧ (updateOrder st oid u now).2.messages = st.messages
      ∧ (updateOrder st oid u now).2.statusHistory = st.statusHistory)
    ∧ (getOrder st oid = none → updateOrder st oid u now = (none, st)) := by
  constructor
  · intro o h
    have hm : mapGet st.orders oid = some o := h
    rw [updateOrder_found st oid u now o hm]
    refine ⟨rfl, ?_, ?_, rfl, ?_, rfl, rfl,
      ?_, ?_, ?_, ?_, ?_, ?_, ?_, ?_, ?_, ?_, ?_, ?_, rfl, rfl⟩
    · simp [getOrder, mapGet_set_self]
    · intro oid2 hne
      simp [getOrder, mapGet_set_ne st.orders oid oid2 _ hne]
    · intro hle
      simpa [mergeOrder] using hle
    all_goals intros
    all_goals simp [mergeOrder, *]
  · intro h
    exact updateOrder_absent st oid u now h

/-- Witness for C6 at the demo order: a status-only patch keeps every
other field and bumps updatedAt. -/
theorem updateOrder_frame_w :
    (updateOrder demoStore "ORD-2024-001" (statusPatch "shipped") 4).1
        = some (mergeOrder (createOrder emptyStorage demoInsert 0).1
            (statusPatch "shipped") 4)
    ∧ (mergeOrder (createOrder emptyStorage demoInsert 0).1
        (statusPatch "shipped") 4).customerName = "John Doe"
    ∧ (mergeOrder (createOrder emptyStorage demoInsert 0).1
        (statusPatch "shipped") 4).updatedAt = 4
    ∧ updateOrder demoStore "ORD-NOPE" (statusPatch "shipped") 4
        = (none, demoStore) := by
  have h := updateOrder_frame demoStore "ORD-2024-001"
    (statusPatch "shipped") 4
  have hf := h.1 (createOrder emptyStorage demoInsert 0).1 (by decide)
  have ha := (updateOrder_frame demoStore "ORD-NOPE"
    (statusPatch "shipped") 4).2 (by decide)
  refine ⟨hf.1, ?_, hf.2.2.2.1, ha⟩
  exact hf.2.2.2.2.2.2.2.2.2.1 (by decide)

/-- One append operation against the store (a call to addOrderMessage or
addOrderStatusHistory). -/
inductive LogOp where
  | msg (im : InsertOrderMessage) (now : Nat)
  | hist (ihx : InsertOrderStatusHistory) (now : Nat)

/-- Apply one append operation to the store. -/
def applyLogOp (st : MemStorage) : LogOp → MemStorage
  | LogOp.msg im now => (addOrderMessage st im now).2
  | LogOp.hist ihx now => (addOrderStatusHistory st ihx now).2

/-- Apply a sequence of append operations to the store. -/
def applyLogOps (st : MemStorage) : List LogOp → MemStorage
  | [] => st
  | op :: rest => applyLogOps (applyLogOp st op) rest

/-- One append operation extends each order's message log (by nothing or
by one entry at the end). -/
theorem msgs_applyLogOp_extends (st : MemStorage) (op : LogOp)
    (oid : String) :
    ∃ t, getOrderMessages st oid ++ t
        = getOrderMessages (applyLogOp st op) oid := by
  cases op with
  | msg im now =>
    by_cases h : im.orderId = oid
    · subst h
      refine ⟨[{ id := st.currentId, orderId := im.orderId,
                 messageType := im.messageType, content := im.content,
                 timestamp := now, metadata := im.metadata }], ?_⟩
      simp [applyLogOp, addOrderMessage, getOrderMessages, mapGet_set_self]
    · refine ⟨[], ?_⟩
      have hne : oid ≠ im.orderId := fun h2 => h h2.symm
      simp [applyLogOp, addOrderMessage, getOrderMessages,
        mapGet_set_ne st.messages im.orderId oid _ hne]
  | hist ihx now =>
    exact ⟨[], by simp [applyLogOp, addOrderStatusHistory, getOrderMessages]⟩

/-- One append operation extends each order's status-history log. -/
theorem hist_applyLogOp_extends (st : MemStorage) (op : LogOp)
    (oid : String) :
    ∃ t, getOrderStatusHistory st oid ++ t
        = getOrderStatusHistory (applyLogOp st op) oid := by
  cases op with
  | msg im now =>
    exact ⟨[], by simp [applyLogOp, addOrderMessage, getOrderStatusHistory]⟩
  | hist ihx now =>
    by_cases h : ihx.orderId = oid
    · subst h
      refine ⟨[{ id := st.currentId, orderId := ihx.orderId,
                 status := ihx.status, title := ihx.title,
                 description := ihx.description,
                 operator := ihx.operator,
                 duration := ihx.duration, timestamp := now }], ?_⟩
      simp [applyLogOp, addOrderStatusHistory, getOrderStatusHistory,
        mapGet_set_self]
    · refine ⟨[], ?_⟩
      have hne : oid ≠ ihx.orderId := fun h2 => h h2.symm
      simp [applyLogOp, addOrderStatusHistory, getOrderStatusHistory,
        mapGet_set_ne st.statusHistory ihx.orderId oid _ hne]

/-- Any sequence of append operations only extends each message log. -/
theorem msgs_applyLogOps_extends (ops : List LogOp) (st : MemStorage)
    (oid : String) :
    ∃ t, getOrderMessages st oid ++ t
        = getOrderMessages (applyLogOps st ops) oid := by
  induction ops generalizing st with
  | nil => exact ⟨[], by simp [applyLogOps]⟩
  | cons op rest ih =>
    obtain ⟨t1, h1⟩ := msgs_applyLogOp_extends st op oid
    obtain ⟨t2, h2⟩ := ih (applyLogOp st op)
    exact ⟨t1 ++ t2, by rw [applyLogOps, ← h2, ← h1, List.append_assoc]⟩

/-- Any sequence of append operations only extends each history log. -/
theorem hist_applyLogOps_extends (ops : List LogOp) (st : MemStorage)
    (oid : String) :
    ∃ t, getOrderStatusHistory st oid ++ t
        = getOrderStatusHistory (applyLogOps st ops) oid := by
  induction ops generalizing st with
  | nil => exact ⟨[], by simp [applyLogOps]⟩
  | cons op rest ih =>
    obtain ⟨t1, h1⟩ := hist_applyLogOp_extends st op oid
    obtain ⟨t2, h2⟩ := ih (applyLogOp st op)
    exact ⟨t1 ++ t2, by rw [applyLogOps, ← h2, ← h1, List.append_assoc]⟩

/-- C7: the message and status-history logs are append-only — after any
sequence of append operations the previously returned sequence is a
prefix of the new one (so lengths are non-decreasing and earlier entries
keep their content and relative order) — and clearMessages empties
exactly that order's message log, leaving every other order's messages
and all status histories untouched. -/
theorem logs_append_only (st : MemStorage) (ops : List LogOp)
    (oid : String) :
    (∃ t, getOrderMessages st oid ++ t
        = getOrderMessages (applyLogOps st ops) oid)
    ∧ (getOrderMessages st oid).length
        ≤ (getOrderMessages (applyLogOps st ops) oid).length
    ∧ (∃ t, getOrderStatusHistory st oid ++ t
        = getOrderStatusHistory (applyLogOps st ops) oid)
    ∧ (getOrderStatusHistory st oid).length
        ≤ (getOrderStatusHistory (applyLogOps st ops) oid).length
    ∧ getOrderMessages (clearOrderMessages st oid) oid = []
    ∧ (∀ oid2, oid2 ≠ oid →
        getOrderMessages (clearOrderMessages st oid) oid2
          = getOrderMessages st oid2)
    ∧ (clearOrderMessages st oid).statusHistory = st.statusHistory := by
  obtain ⟨t1, h1⟩ := msgs_applyLogOps_extends ops st oid
  obtain ⟨t2, h2⟩ := hist_applyLogOps_extends ops st oid
  refine ⟨⟨t1, h1⟩, ?_, ⟨t2, h2⟩, ?_, ?_, ?_, rfl⟩
  · rw [← h1]
    simp
  · rw [← h2]
    simp
  · simp [clearOrderMessages, getOrderMessages, mapGet_delete_self]
  · intro oid2 hne
    simp [clearOrderMessages, getOrderMessages,
      mapGet_delete_ne st.messages oid oid2 hne]

/-- A concrete info-message payload used to instantiate the append-only
property. -/
def demoMsgIns : InsertOrderMessage :=
  { orderId := "ORD-2024-001", messageType := "info",
    content := "hello", metadata := none }

/-- Witness for C7: one info message appended to the demo order, then a
clear, at concrete inputs. -/
theorem logs_append_only_w :
    (∃ t, getOrderMessages demoStore "ORD-2024-001" ++ t
        = getOrderMessages
            (applyLogOps demoStore [LogOp.msg demoMsgIns 3])
            "ORD-2024-001")
    ∧ getOrderMessages (clearOrderMessages demoStore "ORD-2024-001")
        "ORD-2024-001" = []
    ∧ getOrderMessages (clearOrderMessages demoStore "ORD-2024-001")
        "ORD-OTHER" = getOrderMessages demoStore "ORD-OTHER" := by
  have h := logs_append_only demoStore [LogOp.msg demoMsgIns 3]
    "ORD-2024-001"
  exact ⟨h.1, h.2.2.2.2.1, h.2.2.2.2.2.1 "ORD-OTHER" (by decide)⟩

/-- C9: creating an order whose orderId already exists silently
overwrites the stored record with a fresh one (new internal id, both
timestamps reset to now), reports plain success at the HTTP layer (no
duplicate-key failure exists on this path), and retains the existing
message and status-history logs under that orderId. -/
theorem createOrder_overwrite (st : MemStorage) (ins : InsertOrder)
    (now : Nat) (oOld : Order)
    (h : getOrder st ins.orderId = some oOld) :
    getOrder (createOrder st ins now).2 ins.orderId
        = some (createOrder st ins now).1
    ∧ (createOrder st ins now).1.id = st.currentId
    ∧ (oOld.id < st.currentId → (createOrder st ins now).1.id ≠ oOld.id)
    ∧ (createOrder st ins now).1.createdAt = now
    ∧ (createOrder st ins now).1.updatedAt = now
    ∧ (createOrder st ins now).2.messages = st.messages
    ∧ (createOrder st ins now).2.statusHistory = st.statusHistory
    ∧ getOrderMessages (createOrder st ins now).2 ins.orderId
        = getOrderMessages st ins.orderId
    ∧ getOrderStatusHistory (createOrder st ins now).2 ins.orderId
        = getOrderStatusHistory st ins.orderId
    ∧ createOrderRoute st ins now
        = { status := 200, success := true,
            state := (createOrder st ins now).2, event := none } := by
  refine ⟨?_, rfl, ?_, rfl, rfl, rfl, rfl, rfl, rfl, rfl⟩
  · simp [getOrder, createOrder, mapGet_set_self]
  · intro hlt
    simp only [createOrder]
    omega

/-- Witness for C9: re-creating ORD-2024-001 over the demo store
overwrites it with id 2 and answers 200. -/
theorem createOrder_overwrite_w :
    getOrder (createOrder demoStore demoInsert 9).2 "ORD-2024-001"
        = some (createOrder demoStore demoInsert 9).1
    ∧ (createOrder demoStore demoInsert 9).1.id = 2
    ∧ (createOrderRoute demoStore demoInsert 9).status = 200 := by
  have h := createOrder_overwrite demoStore demoInsert 9
    (createOrder emptyStorage demoInsert 0).1 (by decide)
  exact ⟨h.1, h.2.1, by rw [h.2.2.2.2.2.2.2.2.2]⟩

/-- C8 counterexample: a request whose body carries the status field
with value "" has a status present, yet the guarded trigger-update
handler answers 400, not 200 — JS `if (!status)` treats the empty string
exactly like a missing field. -/
theorem trigger_route_empty_status_cex :
    (triggerUpdateRoute demoStore "ORD-2024-001" (some "") "2m" 5).status
        = 400
    ∧ ¬ (triggerUpdateRoute demoStore "ORD-2024-001" (some "") "2m" 5).status
        = 200 := by
  exact ⟨rfl, by decide⟩

/-- C8 (amended): a missing status field — and likewise an empty-string
status, which JS truthiness treats the same way — makes the guarded
trigger-update endpoint answer 400 without performing any update; a
non-empty status present makes it run the manual trigger and answer 200
with a success marker. -/
theorem trigger_route_status_guard (st : MemStorage) (oid dur : String)
    (now : Nat) :
    triggerUpdateRoute st oid none dur now
        = { status := 400, success := false, state := st, event := none }
    ∧ triggerUpdateRoute st oid (some "") dur now
        = { status := 400, success := false, state := st, event := none }
    ∧ (∀ s, s ≠ "" →
        triggerUpdateRoute st oid (some s) dur now
          = { status := 200, success := true,
              state := (triggerOrderUpdate st oid s dur now).1,
              event := (triggerOrderUpdate st oid s dur now).2 }) := by
  refine ⟨rfl, rfl, ?_⟩
  intro s hs
  have hf : statusFalsy (some s) = false := by
    simp [statusFalsy, hs]
  simp [triggerUpdateRoute, hf]

/-- Witness for the amended C8 at concrete requests: missing status gives
400, status "shipped" gives 200. -/
theorem trigger_route_status_guard_w :
    (triggerUpdateRoute demoStore "ORD-2024-001" none "2m" 5).status = 400
    ∧ (triggerUpdateRoute demoStore "ORD-2024-001" (some "shipped") "2m" 5).status
        = 200 := by
  constructor
  · rw [(trigger_route_status_guard demoStore "ORD-2024-001" "2m" 5).1]
  · rw [(trigger_route_status_guard demoStore "ORD-2024-001" "2m" 5).2.2
      "shipped" (by decide)]

/-- The head of a truncated list equals the head of the full list when
the limit is positive. -/
theorem head_take_of_pos {α : Type} (l : List α) (n : Nat) (h : 1 ≤ n) :
    (l.take n).head? = l.head? := by
  cases n with
  | zero => omega
  | succ m =>
    cases l with
    | nil => rfl
    | cons a as => rfl

/-- Overwriting a key stored in the last position keeps it in the last
position when no earlier binding uses the key. -/
theorem mapSet_append_last {α : Type} (m : List (String × α))
    (k : String) (v0 v : α) (h : mapGet m k = none) :
    mapSet (m ++ [(k, v0)]) k v = m ++ [(k, v)] := by
  induction m with
  | nil => simp [mapSet]
  | cons p rest ih =>
    obtain ⟨a, b⟩ := p
    by_cases hp : a = k
    · simp [mapGet, hp] at h
    · simp [mapGet, hp] at h
      simp [mapSet, hp, ih h]

/-- When the last element strictly dominates every other element's
timestamp, it is the head of the descending sort. -/
theorem head_sortDesc_max (l : List Order) (x : Order)
    (h : ∀ y ∈ l, y.updatedAt < x.updatedAt) :
    (sortDesc (l ++ [x])).head? = some x := by
  have hx_mem : x ∈ sortDesc (l ++ [x]) :=
    (mem_sortDesc x (l ++ [x])).mpr (by simp)
  have hpw := pairwise_sortDesc (l ++ [x])
  cases hs : sortDesc (l ++ [x]) with
  | nil =>
    rw [hs] at hx_mem
    cases hx_mem
  | cons h0 t =>
    rw [hs] at hx_mem hpw
    have h0mem : h0 ∈ l ++ [x] :=
      (mem_sortDesc h0 (l ++ [x])).mp (by rw [hs]; exact List.mem_cons_self h0 t)
    have hx_le : x.updatedAt ≤ h0.updatedAt := by
      rcases List.mem_cons.mp hx_mem with he | ht
      · rw [he]
      · exact (List.pairwise_cons.mp hpw).1 x ht
    rcases List.mem_append.mp h0mem with hl | hr
    · exfalso
      have h1 := h h0 hl
      omega
    · have h0x : h0 = x := by simpa using hr
      rw [h0x]
      rfl

/-- C4: getRecentOrders returns at most `limit` orders, sorted by
updatedAt descending with map-insertion order as the stable tie-break
for equal timestamps; the default limit is 10; and after inserting a new
order and updating it at a time strictly later than every other order's
updatedAt, that order is first in the listing. -/
theorem listRecentOrders_spec :
    (∀ st n, (getRecentOrders st n).length ≤ n)
    ∧ (∀ st n, List.Pairwise updGe (getRecentOrders st n))
    ∧ (∀ st t,
        (sortDesc (ordersList st)).filter (fun o => o.updatedAt == t)
          = (ordersList st).filter (fun o => o.updatedAt == t))
    ∧ (∀ st, getRecentOrdersDefault st
        = (sortDesc (ordersList st)).take 10)
    ∧ (∀ st ins now1 u now2 n,
        getOrder st ins.orderId = none →
        (∀ p ∈ st.orders, p.2.updatedAt < now2) →
        1 ≤ n →
        (getRecentOrders
            (updateOrder (createOrder st ins now1).2 ins.orderId u
              now2).2 n).head?
          = some (mergeOrder (createOrder st ins now1).1 u now2)) := by
  refine ⟨?_, ?_, ?_, ?_, ?_⟩
  · intro st n
    simp [getRecentOrders, List.length_take]
  · intro st n
    exact List.Pairwise.sublist (List.take_sublist n _)
      (pairwise_sortDesc _)
  · intro st t
    exact filter_sortDesc (ordersList st) t
  · intro st
    rfl
  · intro st ins now1 u now2 n hnone hlt hn
    have hm : mapGet st.orders ins.orderId = none := hnone
    have hst1 : (createOrder st ins now1).2.orders
        = mapSet st.orders ins.orderId (createOrder st ins now1).1 := rfl
    have hget : mapGet (createOrder st ins now1).2.orders ins.orderId
        = some (createOrder st ins now1).1 := by
      rw [hst1]
      exact mapGet_set_self st.orders ins.orderId _
    rw [updateOrder_found _ ins.orderId u now2 _ hget]
    have horders : mapSet (createOrder st ins now1).2.orders ins.orderId
        (mergeOrder (createOrder st ins now1).1 u now2)
        = st.orders ++
          [(ins.orderId, mergeOrder (createOrder st ins now1).1 u now2)] := by
      rw [hst1, mapSet_absent st.orders _ _ hm]
      exact mapSet_append_last st.orders _ _ _ hm
    show ((sortDesc
        ((mapSet (createOrder st ins now1).2.orders ins.orderId
          (mergeOrder (createOrder st ins now1).1 u now2)).map
            Prod.snd)).take n).head? = _
    rw [horders, List.map_append, head_take_of_pos _ n hn]
    exact head_sortDesc_max _ _ (by
      intro y hy
      obtain ⟨p, hp, hpy⟩ := List.mem_map.mp hy
      have h1 := hlt p hp
      rw [← hpy]
      simpa [mergeOrder] using h1)

/-- Witness for C4: inserting ORD-TEST-1 into the demo store at time 1
and updating it at time 2 puts it at the front of the listing. -/
theorem listRecentOrders_spec_w :
    (getRecentOrders
        (updateOrder (createOrder demoStore demoInsert2 1).2
          demoInsert2.orderId (statusPatch "confirmed") 2).2 10).head?
      = some (mergeOrder (createOrder demoStore demoInsert2 1).1
          (statusPatch "confirmed") 2) := by
  exact listRecentOrders_spec.2.2.2.2 demoStore demoInsert2 1
    (statusPatch "confirmed") 2 10 (by decide) (by decide) (by decide)

end RSU
